import Mathlib

/-!
Verification development for vanity.py, a Solana vanity-address generator.

The program builds a regular expression from the user's vanity text
(prepending a caret for start-anchored matching or appending a dollar for
end-anchored matching, optionally with the IGNORECASE flag), spawns worker
processes that generate keypairs in batches and test each public key with
the compiled pattern, collects a fixed number of matches in the main loop,
and then merges the collected matches into a JSON result file.

The definitions below are a shallow embedding of that code: channels become
lists of messages in arrival order, the regex engine is modelled on the
fragment of Python regular-expression syntax that the program can actually
build (literal characters, the dot wildcard, the caret and dollar anchors,
case folding for IGNORECASE), the file system becomes an explicit state,
and Python exceptions become Option results.
-/

/-! ## Matcher: the compiled pattern and Python re.search on it

Source: vanity.py lines 66-72 build the pattern string and compile it;
line 25 applies pattern_compiled.search to the textual public key. -/

/-- Token of the modelled regular-expression fragment: the caret anchor,
the dollar anchor, the dot wildcard, or a literal character.  Characters
with a quantifier or grouping meaning in Python syntax are outside the
fragment. -/
inductive RegexTok
  | caret
  | dollar
  | dot
  | lit (c : Char)
deriving DecidableEq, Repr

/-- Case folding applied to one character when the IGNORECASE flag is set
(Python folds both the pattern and the subject; lowering both sides models
this for the ASCII alphabet of base58 addresses). -/
def caseApp (ignore_case : Bool) (c : Char) : Char :=
  if ignore_case then c.toLower else c

/-- Character comparison under the optional IGNORECASE flag. -/
def ciEq (ignore_case : Bool) (a b : Char) : Bool :=
  caseApp ignore_case a == caseApp ignore_case b

/-- Case folding of a whole string (as a character list). -/
def foldCase (ignore_case : Bool) (s : List Char) : List Char :=
  s.map (caseApp ignore_case)

/-- Interpretation of one pattern character, as Python re compiles it:
a caret is a start anchor, a dollar is an end anchor, a dot is the
wildcard, anything else in the fragment is a literal. -/
def tokenizeChar (c : Char) : RegexTok :=
  if c = '^' then RegexTok.caret
  else if c = '$' then RegexTok.dollar
  else if c = '.' then RegexTok.dot
  else RegexTok.lit c

/-- Interpretation of the whole pattern string. -/
def tokenize (p : List Char) : List RegexTok :=
  p.map tokenizeChar

/-- Python re matching of a token list against the rest of the subject,
where i is the current position in the full subject (needed by the caret
anchor, which matches only at position zero without MULTILINE) and rest is
the unread remainder.  The dollar anchor is zero width and matches at the
end of the subject or just before a single trailing newline, exactly as
Python defines it without MULTILINE. -/
def reMatchAt (ign : Bool) : List RegexTok → Nat → List Char → Bool
  | [], _, _ => true
  | RegexTok.caret :: ts, i, rest => decide (i = 0) && reMatchAt ign ts i rest
  | RegexTok.dollar :: ts, i, rest =>
      (decide (rest = []) || decide (rest = ['\n'])) && reMatchAt ign ts i rest
  | RegexTok.dot :: _, _, [] => false
  | RegexTok.dot :: ts, i, c :: rest => decide (c ≠ '\n') && reMatchAt ign ts (i + 1) rest
  | RegexTok.lit _ :: _, _, [] => false
  | RegexTok.lit a :: ts, i, c :: rest => ciEq ign a c && reMatchAt ign ts (i + 1) rest

/-- Python re.search tries to match at every position from i onward. -/
def reSearchAux (ign : Bool) (toks : List RegexTok) : Nat → List Char → Bool
  | i, [] => reMatchAt ign toks i []
  | i, c :: rest => reMatchAt ign toks i (c :: rest) || reSearchAux ign toks (i + 1) rest

/-- Python re.search: scan for a match anywhere in the subject. -/
def reSearch (ign : Bool) (toks : List RegexTok) (s : List Char) : Bool :=
  reSearchAux ign toks 0 s

/-- The pattern string built by main (vanity.py lines 66-69): the vanity
text with a dollar appended when match_end is set, otherwise with a caret
prepended. -/
def buildPattern (vanity_text : List Char) (match_end : Bool) : List Char :=
  if match_end then vanity_text ++ ['$'] else '^' :: vanity_text

/-- The whole Matcher: compile the pattern from the vanity text and the
match_end flag with the optional IGNORECASE flag (vanity.py line 72), then
search the address string with it (vanity.py line 25). -/
def matcherAccepts (vanity_text : List Char) (match_end ignore_case : Bool)
    (s : List Char) : Bool :=
  reSearch ignore_case (tokenize (buildPattern vanity_text match_end)) s

/-- Characters that Python regular-expression syntax treats specially; a
vanity text avoiding all of them compiles to a plain anchored literal. -/
def regexSpecialChars : List Char :=
  ['^', '$', '.', '*', '+', '?', '(', ')', '[', ']', '|', '\\', '\x7b', '\x7d']

/-- A character the regex compiler treats as a literal. -/
def plainChar (c : Char) : Bool :=
  !(regexSpecialChars.contains c)

/-- A vanity text made only of regex-literal characters. -/
def plainText (t : List Char) : Bool :=
  t.all plainChar

/-- An address string with no newline character (every base58 address
satisfies this). -/
def noNewline (s : List Char) : Bool :=
  s.all (fun c => c != '\n')

/-! ## Worker: generate_vanity_address (vanity.py lines 13-33)

The worker loops forever; each outer iteration runs a batch of batch_size
generation attempts, incrementing a local attempts counter per candidate.
A candidate whose public key the compiled pattern accepts is packaged into
a match record, put on the result queue, and the worker returns at once,
without reporting the partial batch on the progress queue.  A batch that
completes with no match puts its attempt count on the progress queue.  The
opaque keypair source is modelled as a list of candidates in generation
order, and the unbounded outer loop is cut off by a fuel count of batches. -/

/-- The record the worker builds on a match (vanity.py lines 26-29): the
textual public key and the base58-encoded secret key. -/
structure MatchRecord where
  public_key : List Char
  secret_key : List Char
deriving DecidableEq, Repr

/-- One keypair as the worker sees it: its textual public key and the
base58 encoding of its secret material (the encoding itself is the opaque
external capability). -/
structure Candidate where
  pubkey : List Char
  secretEncoded : List Char
deriving DecidableEq, Repr

/-- Result of running the inner for-loop of the worker. -/
inductive BatchOutcome
  | matched (r : MatchRecord) (attemptsSoFar : Nat) (rest : List Candidate)
  | completed (attempts : Nat) (rest : List Candidate)
  | exhausted
deriving DecidableEq, Repr

/-- The inner for-loop (vanity.py lines 20-31): run the given number of
remaining iterations, generating one candidate per iteration, incrementing
attempts, and stopping at the first accepted public key.  The exhausted
outcome marks the modelling cutoff where the candidate list runs out. -/
def runBatch (accepts : List Char → Bool) : Nat → Nat → List Candidate → BatchOutcome
  | 0, attempts, cs => BatchOutcome.completed attempts cs
  | _ + 1, _, [] => BatchOutcome.exhausted
  | n + 1, attempts, c :: cs =>
      if accepts c.pubkey then
        BatchOutcome.matched ⟨c.pubkey, c.secretEncoded⟩ (attempts + 1) cs
      else
        runBatch accepts n (attempts + 1) cs

/-- The worker loop (vanity.py lines 18-33): run batches until a match is
found, returning the list of attempt counts put on the progress queue and
the match record put on the result queue, if any.  fuel bounds the number
of batches run; when fuel runs out or the candidate list is exhausted the
worker is still running, which the model reports as no result. -/
def generate_vanity_address (accepts : List Char → Bool) (batch_size : Nat) :
    Nat → List Candidate → List Nat × Option MatchRecord
  | 0, _ => ([], none)
  | fuel + 1, cs =>
      match runBatch accepts batch_size 0 cs with
      | BatchOutcome.matched r _ _ => ([], some r)
      | BatchOutcome.exhausted => ([], none)
      | BatchOutcome.completed attempts rest =>
          let p := generate_vanity_address accepts batch_size fuel rest
          (attempts :: p.1, p.2)

/-! ## ProgressAggregator: progress_monitor (vanity.py lines 36-51)

On each received batch count the monitor adds it to the shared total and
divides the total by the elapsed time since the monitor started.  The
division is unguarded in the source; Python raises ZeroDivisionError when
the divisor is zero, which the model reports as none.  Elapsed time is
modelled as an exact rational. -/

/-- One iteration of the monitor loop body for a numeric batch message
(vanity.py lines 45-51): the new running total together with the attempts
per second it prints, or none when the division by the elapsed time raises
ZeroDivisionError. -/
def progress_monitor_step (total_attempts attempts : Int) (elapsed_time : ℚ) :
    Option (Int × ℚ) :=
  let newTotal := total_attempts + attempts
  if elapsed_time = 0 then none
  else some (newTotal, (newTotal : ℚ) / elapsed_time)

/-! ## Coordinator: the collection loop, signals and persistence
(vanity.py lines 54-144) -/

/-- What the main process can observe arriving while it blocks on the
result queue: a match record from some worker, or an interrupt signal
(SIGINT or SIGTERM), which runs signal_handler. -/
inductive Event
  | matchFound (r : MatchRecord)
  | interrupt
deriving DecidableEq, Repr

/-- Outcome of the collection loop (vanity.py lines 97-107). -/
inductive LoopOutcome
  | blocked
  | interrupted (collected : List MatchRecord)
  | completed (collected : List MatchRecord)
deriving DecidableEq, Repr

/-- The collection loop (vanity.py lines 97-107): while found is below
max_matches, block on the result queue; append each received record and
increment found.  An interrupt while blocked runs signal_handler, which
exits the process.  An exhausted event list while still waiting models the
loop blocked on queue.get with nothing arriving. -/
def collectEvents (max_matches : Int) : Int → List MatchRecord → List Event → LoopOutcome
  | found, results, [] =>
      if found < max_matches then LoopOutcome.blocked else LoopOutcome.completed results
  | found, results, e :: rest =>
      if found < max_matches then
        match e with
        | Event.interrupt => LoopOutcome.interrupted results
        | Event.matchFound r => collectEvents max_matches (found + 1) (results ++ [r]) rest
      else LoopOutcome.completed results

/-- On-disk state of the result file for the current vanity text. -/
inductive FileState
  | missing
  | corrupt
  | valid (records : List MatchRecord)
deriving DecidableEq, Repr

/-- Loading the existing data (vanity.py lines 117-124): a missing file
and a file whose JSON fails to decode both give the empty list; a valid
file gives its records.  The except branch for corrupt JSON assigns the
empty list and nothing else: no message is printed there. -/
def loadPrior : FileState → List MatchRecord
  | FileState.missing => []
  | FileState.corrupt => []
  | FileState.valid records => records

/-- Console messages the persistence code can print (vanity.py line 133
is the only print in the try block) and the interrupt handler message
(vanity.py line 143). -/
inductive ConsoleMsg
  | errorSaving
  | exitingGracefully
deriving DecidableEq, Repr

/-- The persistence step (vanity.py lines 116-134): load the prior state,
extend it with the new results, and write it back once.  writeOk says
whether the single write attempt succeeds.  Returns the records written
(none when the write fails, leaving the file in an unspecified state), the
console messages printed, and the exit code requested by sys.exit (none
when control falls through normally). -/
def persistStep (fileBefore : FileState) (results : List MatchRecord) (writeOk : Bool) :
    Option (List MatchRecord) × List ConsoleMsg × Option Int :=
  let existing_data := loadPrior fileBefore
  let merged := existing_data ++ results
  if writeOk then (some merged, [], none)
  else (none, [ConsoleMsg.errorSaving], some 1)

/-- Observable outcome of one run of main. -/
structure RunResult where
  fileAfter : Option FileState
  console : List ConsoleMsg
  exitCode : Int
  persistInvoked : Bool
deriving DecidableEq, Repr

/-- The coordinator (vanity.py lines 54-137 with signal_handler at lines
139-144): run the collection loop over the events that arrive; an
interrupt prints the graceful message and exits with code 0 at once,
leaving the file untouched and never reaching the persistence block; a
completed loop terminates the workers, drains the monitor, and runs the
persistence step, exiting 0 on success and 1 on a failed write.  none
models a run still blocked on the result queue. -/
def runCoordinator (max_matches : Int) (events : List Event) (fileBefore : FileState)
    (writeOk : Bool) : Option RunResult :=
  match collectEvents max_matches 0 [] events with
  | LoopOutcome.blocked => none
  | LoopOutcome.interrupted _ =>
      some ⟨some fileBefore, [ConsoleMsg.exitingGracefully], 0, false⟩
  | LoopOutcome.completed results =>
      match persistStep fileBefore results writeOk with
      | (some merged, msgs, _) => some ⟨some (FileState.valid merged), msgs, 0, true⟩
      | (none, msgs, exitReq) => some ⟨none, msgs, exitReq.getD 1, true⟩

example : matcherAccepts ['a', 'b'] false false ['a', 'b', 'X'] = true := by decide
example : matcherAccepts ['a', 'b'] false false ['A', 'B', 't'] = false := by decide
example : matcherAccepts ['a', 'b'] false true ['A', 'B', 't'] = true := by decide
example : matcherAccepts ['X', 'Y'] true true ['w', 'x', 'x', 'y'] = true := by decide
example : matcherAccepts ['X', 'Y'] true true ['x', 'y', 'z', 'z'] = false := by decide
example : matcherAccepts ['.'] false false ['x', 'y', 'z'] = true := by decide
example : matcherAccepts [] false false ['Q'] = true := by decide
example : matcherAccepts ['a', 'b'] true false ['z', 'a', 'b'] = true := by decide
example : matcherAccepts ['a', 'b'] true false ['a', 'b', 'z'] = false := by decide

/-! ## Lemmas about the regex fragment -/

/-- A regex-literal character tokenizes to a literal token. -/
theorem tokenizeChar_plain (c : Char) (h : plainChar c = true) :
    tokenizeChar c = RegexTok.lit c := by
  unfold tokenizeChar
  split_ifs with h1 h2 h3
  · subst h1; exact absurd h (by decide)
  · subst h2; exact absurd h (by decide)
  · subst h3; exact absurd h (by decide)
  · rfl

/-- A vanity text of regex-literal characters tokenizes to literal tokens. -/
theorem tokenize_plainText : ∀ (t : List Char), plainText t = true →
    tokenize t = t.map RegexTok.lit := by
  intro t
  induction t with
  | nil => intro _; rfl
  | cons c t ih =>
      intro h
      simp only [plainText, List.all_cons, Bool.and_eq_true] at h
      simp only [tokenize, List.map_cons, tokenizeChar_plain c h.1]
      have := ih h.2
      simp only [tokenize] at this
      rw [this]

/-- Matching a literal-token pattern is prefix comparison of the
case-folded pattern against the case-folded remainder. -/
theorem reMatchAt_lits (ign : Bool) : ∀ (t rest : List Char) (i : Nat),
    (reMatchAt ign (t.map RegexTok.lit) i rest = true ↔
      foldCase ign t <+: foldCase ign rest) := by
  intro t
  induction t with
  | nil =>
      intro rest i
      simp [reMatchAt, foldCase, List.nil_prefix]
  | cons a t ih =>
      intro rest i
      cases rest with
      | nil => simp [reMatchAt, foldCase, List.prefix_nil]
      | cons c r =>
          simp [reMatchAt, foldCase, ciEq, List.cons_prefix_cons, Bool.and_eq_true,
            beq_iff_eq, ih r (i + 1)]

/-- A caret-anchored pattern never matches at a positive position, so the
scan of re.search finds nothing past the start. -/
theorem reSearchAux_caret_pos (ign : Bool) (ts : List RegexTok) :
    ∀ (rest : List Char) (i : Nat),
    reSearchAux ign (RegexTok.caret :: ts) (i + 1) rest = false := by
  intro rest
  induction rest with
  | nil => intro i; simp [reSearchAux, reMatchAt]
  | cons c r ih => intro i; simp [reSearchAux, reMatchAt, ih (i + 1)]

/-- For a caret-anchored pattern, re.search reduces to matching at the
start of the subject. -/
theorem reSearch_caret (ign : Bool) (ts : List RegexTok) (s : List Char) :
    reSearch ign (RegexTok.caret :: ts) s =
      reMatchAt ign (RegexTok.caret :: ts) 0 s := by
  cases s with
  | nil => rfl
  | cons c r => simp [reSearch, reSearchAux, reSearchAux_caret_pos ign ts r 0]

/-- Matching literal tokens followed by the dollar anchor against a
newline-free remainder is case-folded equality with the whole remainder. -/
theorem reMatchAt_lits_dollar (ign : Bool) : ∀ (t rest : List Char) (i : Nat),
    noNewline rest = true →
    (reMatchAt ign (t.map RegexTok.lit ++ [RegexTok.dollar]) i rest = true ↔
      foldCase ign t = foldCase ign rest) := by
  intro t
  induction t with
  | nil =>
      intro rest i h
      cases rest with
      | nil => simp [reMatchAt, foldCase]
      | cons c r =>
          simp only [noNewline, List.all_cons, Bool.and_eq_true, bne_iff_ne] at h
          have hne : (c :: r) ≠ ['\n'] := by
            intro heq
            cases heq
            exact h.1 rfl
          simp [reMatchAt, foldCase, hne]
  | cons a t ih =>
      intro rest i h
      cases rest with
      | nil => simp [reMatchAt, foldCase]
      | cons c r =>
          simp only [noNewline, List.all_cons, Bool.and_eq_true] at h
          simp [reMatchAt, foldCase, ciEq, Bool.and_eq_true, beq_iff_eq,
            ih r (i + 1) h.2, List.cons.injEq]

/-- For literal tokens followed by the dollar anchor, re.search over a
newline-free subject is case-folded suffix comparison. -/
theorem reSearchAux_lits_dollar (ign : Bool) (t : List Char) :
    ∀ (s : List Char) (i : Nat), noNewline s = true →
    (reSearchAux ign (t.map RegexTok.lit ++ [RegexTok.dollar]) i s = true ↔
      foldCase ign t <:+ foldCase ign s) := by
  intro s
  induction s with
  | nil =>
      intro i h
      simp only [reSearchAux]
      rw [reMatchAt_lits_dollar ign t [] i h]
      simp [foldCase, List.suffix_nil]
  | cons c r ih =>
      intro i h
      have hr : noNewline r = true := by
        simp only [noNewline, List.all_cons, Bool.and_eq_true] at h
        exact h.2
      simp only [reSearchAux, Bool.or_eq_true]
      rw [reMatchAt_lits_dollar ign t (c :: r) i h]
      rw [ih (i + 1) hr]
      show _ ↔ foldCase ign t <:+ foldCase ign (c :: r)
      simp [foldCase, List.suffix_cons_iff]

/-- The dollar anchor alone always matches somewhere: re.search with the
pattern consisting of only the end anchor accepts every subject. -/
theorem reSearchAux_dollar (ign : Bool) : ∀ (s : List Char) (i : Nat),
    reSearchAux ign [RegexTok.dollar] i s = true := by
  intro s
  induction s with
  | nil => intro i; simp [reSearchAux, reMatchAt]
  | cons c r ih => intro i; simp [reSearchAux, ih (i + 1)]

/-! ## Claim C1: the Matcher as anchored, optionally case-folded comparison -/

/-- C1 (counterexample): the claim quantifies over every pattern text, but
the code passes the vanity text into a regular expression verbatim, so a
metacharacter changes the meaning: with the case-sensitive PREFIX pattern
consisting of the single dot character, the Matcher accepts the address
xyz even though xyz does not start with a dot character. -/
theorem c1_matcher_counterexample :
    matcherAccepts ['.'] false false ['x', 'y', 'z'] = true ∧
      ¬ (['.'] <+: ['x', 'y', 'z']) := by
  constructor
  · decide
  · decide

/-- C1 (amended): for every pattern text T made of regex-literal
characters (no Python regex metacharacters) and every newline-free address
string S, the Matcher accepts S iff S starts with T when match_end is
unset, and iff S ends with T when match_end is set, comparing case-folded
on both sides exactly when ignore_case is set. -/
theorem c1_matcher_amended (T S : List Char) (match_end ignore_case : Bool)
    (hT : plainText T = true) (hS : noNewline S = true) :
    (matcherAccepts T match_end ignore_case S = true ↔
      (if match_end then foldCase ignore_case T <:+ foldCase ignore_case S
       else foldCase ignore_case T <+: foldCase ignore_case S)) := by
  cases match_end with
  | false =>
      simp only [matcherAccepts, buildPattern, Bool.false_eq_true, if_false]
      have hmapT := tokenize_plainText T hT
      simp only [tokenize] at hmapT
      have hc : tokenizeChar '^' = RegexTok.caret := by decide
      have htok : tokenize ('^' :: T) = RegexTok.caret :: T.map RegexTok.lit := by
        simp only [tokenize, List.map_cons, hc, hmapT]
      rw [htok, reSearch_caret]
      have hstep : reMatchAt ignore_case (RegexTok.caret :: T.map RegexTok.lit) 0 S =
          reMatchAt ignore_case (T.map RegexTok.lit) 0 S := by
        simp [reMatchAt]
      rw [hstep]
      exact reMatchAt_lits ignore_case T S 0
  | true =>
      simp only [matcherAccepts, buildPattern, if_true]
      have hmapT := tokenize_plainText T hT
      simp only [tokenize] at hmapT
      have hd : tokenizeChar '$' = RegexTok.dollar := by decide
      have htok : tokenize (T ++ ['$']) = T.map RegexTok.lit ++ [RegexTok.dollar] := by
        simp only [tokenize, List.map_append, List.map_cons, List.map_nil, hd, hmapT]
      rw [htok]
      exact reSearchAux_lits_dollar ignore_case T S 0 hS

/-- C1 (witness): the amended theorem applied to the pattern ab and the
address ABtest with both flags unset: the pattern text is regex-literal,
the address is newline-free, and the Matcher rejects because ABtest does
not start with ab case-sensitively. -/
theorem c1_matcher_witness :
    plainText ['a', 'b'] = true ∧ noNewline ['A', 'B', 't'] = true ∧
      (matcherAccepts ['a', 'b'] false false ['A', 'B', 't'] = true ↔
        (if false then foldCase false ['a', 'b'] <:+ foldCase false ['A', 'B', 't']
         else foldCase false ['a', 'b'] <+: foldCase false ['A', 'B', 't'])) :=
  ⟨by decide, by decide,
    c1_matcher_amended ['a', 'b'] ['A', 'B', 't'] false false (by decide) (by decide)⟩

/-! ## Claim C3: empty pattern text is not rejected -/

/-- C3 (the code at the failing input): with the empty vanity text the
program does not fail fast; the compiled pattern (a bare caret or a bare
dollar) accepts every address string, so the very first generated keypair
is reported as a match. -/
theorem c3_empty_pattern_accepts_all (match_end ignore_case : Bool) (S : List Char) :
    matcherAccepts [] match_end ignore_case S = true := by
  cases match_end with
  | false =>
      have h := reSearch_caret ignore_case [] S
      simp only [matcherAccepts, buildPattern, Bool.false_eq_true, if_false]
      have htok : tokenize ['^'] = [RegexTok.caret] := rfl
      rw [htok, h]
      simp [reMatchAt]
  | true =>
      simp only [matcherAccepts, buildPattern, if_true]
      have htok : tokenize ['$'] = [RegexTok.dollar] := rfl
      simp only [List.nil_append, htok, reSearch]
      exact reSearchAux_dollar ignore_case S 0

/-! ## Claim C4: the throughput division is unguarded -/

/-- C4 (the code at the failing input): when the first progress batch
arrives with zero elapsed time, the monitor divides the total by zero and
raises ZeroDivisionError (modelled as none), for every prior total and
every batch size: there is no guard and no epsilon clamp in the code. -/
theorem c4_throughput_divzero (total_attempts attempts : Int) :
    progress_monitor_step total_attempts attempts 0 = none := by
  simp [progress_monitor_step]

/-! ## Claim C6: persistence error handling -/

/-- C6 (counterexample): on a corrupt prior result file the code assigns
the empty list in the except branch and prints nothing: the console
message list of the persistence step is empty, so the corrupt content is
discarded silently, not logged as the claim states. -/
theorem c6_corrupt_not_logged_counterexample :
    persistStep FileState.corrupt [] true = (some [], [], none) := rfl

/-- C6 (amended): a missing prior file and a corrupt prior file are both
treated as an empty prior match list, non-fatally and silently (no
console message); a failed write prints the error message and requests
exit code 1, with no retry (the write is attempted exactly once). -/
theorem c6_persistence_error_handling (fileBefore : FileState) (results : List MatchRecord) :
    persistStep FileState.missing results true = (some results, [], none) ∧
      persistStep FileState.corrupt results true = (some results, [], none) ∧
      persistStep fileBefore results false =
        (none, [ConsoleMsg.errorSaving], some 1) := by
  refine ⟨?_, ?_, ?_⟩ <;> simp [persistStep, loadPrior]

/-! ## Lemmas about the worker loop -/

/-- A batch over candidates none of whose first n public keys is accepted
completes with exactly n more attempts and the rest of the stream. -/
theorem runBatch_no_match (accepts : List Char → Bool) :
    ∀ (n a : Nat) (cs : List Candidate), n ≤ cs.length →
    (∀ c ∈ cs.take n, accepts c.pubkey = false) →
    runBatch accepts n a cs = BatchOutcome.completed (a + n) (cs.drop n) := by
  intro n
  induction n with
  | zero => intro a cs _ _; simp [runBatch]
  | succ n ih =>
      intro a cs hlen hno
      cases cs with
      | nil => simp at hlen
      | cons c cs =>
          have hc : accepts c.pubkey = false := by
            apply hno
            simp [List.take_succ_cons]
          have htail : ∀ x ∈ cs.take n, accepts x.pubkey = false := by
            intro x hx
            apply hno
            simp [List.take_succ_cons, hx]
          simp only [runBatch, hc, Bool.false_eq_true, if_false]
          rw [ih (a + 1) cs (by simpa using hlen) htail]
          congr 1
          omega

/-- A batch over a stream whose first accepted candidate c sits after the
rejected block pre, with pre shorter than the remaining iterations, stops
at c: the match record is built from c, the attempts counter reaches the
attempts before the batch plus pre.length + 1, and the stream continues
after c. -/
theorem runBatch_first_match (accepts : List Char → Bool) :
    ∀ (pre : List Candidate) (n a : Nat) (c : Candidate) (post : List Candidate),
    pre.length < n →
    (∀ x ∈ pre, accepts x.pubkey = false) →
    accepts c.pubkey = true →
    runBatch accepts n a (pre ++ c :: post) =
      BatchOutcome.matched ⟨c.pubkey, c.secretEncoded⟩ (a + pre.length + 1) post := by
  intro pre
  induction pre with
  | nil =>
      intro n a c post hn _ hacc
      cases n with
      | zero => omega
      | succ n => simp [runBatch, hacc]
  | cons x pre ih =>
      intro n a c post hn hpre hacc
      cases n with
      | zero => simp at hn
      | succ n =>
          have hx : accepts x.pubkey = false := hpre x (by simp)
          have htail : ∀ y ∈ pre, accepts y.pubkey = false := by
            intro y hy
            exact hpre y (by simp [hy])
          simp only [List.cons_append, runBatch, hx, Bool.false_eq_true, if_false,
            List.append_eq]
          rw [ih n (a + 1) c post (by simpa using hn) htail hacc]
          congr 1
          simp
          omega

/-! ## Claim C5: worker match handling and progress reporting -/

/-- C5: when the first accepted candidate c arrives after pre.length
rejected candidates, the worker emits one progress report of exactly
batch_size for each of the pre.length / batch_size fully completed
match-free batches and nothing else — the attempts of the partially
completed final batch are never put on the progress queue — and it sends
the match record built from c on the result queue and terminates. -/
theorem c5_worker_reports (accepts : List Char → Bool) (batch_size : Nat) :
    ∀ (fuel : Nat) (pre : List Candidate) (c : Candidate) (post : List Candidate),
    0 < batch_size →
    (∀ x ∈ pre, accepts x.pubkey = false) →
    accepts c.pubkey = true →
    pre.length / batch_size < fuel →
    generate_vanity_address accepts batch_size fuel (pre ++ c :: post) =
      (List.replicate (pre.length / batch_size) batch_size,
       some ⟨c.pubkey, c.secretEncoded⟩) := by
  intro fuel
  induction fuel with
  | zero => intro pre c post hb hpre hacc hfuel; exact (Nat.not_lt_zero _ hfuel).elim
  | succ fuel ih =>
      intro pre c post hb hpre hacc hfuel
      by_cases hjb : pre.length < batch_size
      · have hrb := runBatch_first_match accepts pre batch_size 0 c post hjb hpre hacc
        simp only [generate_vanity_address, hrb]
        rw [Nat.div_eq_of_lt hjb]
        simp
      · push_neg at hjb
        have hlen : batch_size ≤ (pre ++ c :: post).length := by
          simp only [List.length_append]
          omega
        have hno : ∀ x ∈ (pre ++ c :: post).take batch_size, accepts x.pubkey = false := by
          intro x hx
          apply hpre
          rw [List.take_append_of_le_length hjb] at hx
          exact List.take_subset _ _ hx
        have hrb := runBatch_no_match accepts batch_size 0 (pre ++ c :: post) hlen hno
        have hdiv : pre.length / batch_size =
            (pre.length - batch_size) / batch_size + 1 := by
          conv_lhs =>
            rw [show pre.length = (pre.length - batch_size) + batch_size from by omega]
          exact Nat.add_div_right _ hb
        have hfuel' : (pre.drop batch_size).length / batch_size < fuel := by
          rw [List.length_drop]
          have h2 : (pre.length - batch_size) / batch_size + 1 < fuel + 1 := by
            rw [← hdiv]
            exact hfuel
          exact Nat.lt_of_succ_lt_succ h2
        have ihx := ih (pre.drop batch_size) c post hb
          (fun x hx => hpre x (List.drop_subset _ _ hx)) hacc hfuel'
        simp only [generate_vanity_address, hrb]
        rw [List.drop_append_of_le_length hjb, ihx]
        rw [hdiv, List.replicate_succ]
        simp [List.length_drop]

/-- C5 (witness): with batch size 2 and a candidate stream whose first
two public keys fail the case-sensitive prefix pattern ab and whose third
passes, the worker reports exactly one full batch of 2 attempts, sends the
match record for the third candidate, and stops: the attempt made in the
partial second batch is not reported. -/
theorem c5_worker_reports_witness :
    0 < 2 ∧
      (∀ x ∈ [Candidate.mk ['z', 'z'] ['s', '0'], Candidate.mk ['z', 'q'] ['s', '1']],
        matcherAccepts ['a', 'b'] false false x.pubkey = false) ∧
      matcherAccepts ['a', 'b'] false false ['a', 'b', 'X'] = true ∧
      ([Candidate.mk ['z', 'z'] ['s', '0'], Candidate.mk ['z', 'q'] ['s', '1']].length / 2 < 2) ∧
      generate_vanity_address (matcherAccepts ['a', 'b'] false false) 2 2
          ([Candidate.mk ['z', 'z'] ['s', '0'], Candidate.mk ['z', 'q'] ['s', '1']] ++
            Candidate.mk ['a', 'b', 'X'] ['s', '2'] :: []) =
        (List.replicate
            ([Candidate.mk ['z', 'z'] ['s', '0'], Candidate.mk ['z', 'q'] ['s', '1']].length / 2) 2,
         some ⟨['a', 'b', 'X'], ['s', '2']⟩) :=
  ⟨by decide, by decide, by decide, by decide,
    c5_worker_reports (matcherAccepts ['a', 'b'] false false) 2 2
      [Candidate.mk ['z', 'z'] ['s', '0'], Candidate.mk ['z', 'q'] ['s', '1']]
      (Candidate.mk ['a', 'b', 'X'] ['s', '2']) [] (by decide) (by decide) (by decide)
      (by decide)⟩

/-! ## Lemmas about the collection loop -/

/-- Over a stream of pure match arrivals, the collection loop consumes
exactly the records needed to close the gap between found and the target
and appends them in arrival order. -/
theorem collectEvents_matches : ∀ (ms : List MatchRecord) (k found : Int)
    (results : List MatchRecord), found ≤ k → (k - found).toNat ≤ ms.length →
    collectEvents k found results (ms.map Event.matchFound) =
      LoopOutcome.completed (results ++ ms.take (k - found).toNat) := by
  intro ms
  induction ms with
  | nil =>
      intro k found results hle hlen
      simp only [List.length_nil, Nat.le_zero] at hlen
      have hk : ¬ (found < k) := by omega
      simp [collectEvents, hk, hlen]
  | cons m ms ih =>
      intro k found results hle hlen
      by_cases hlt : found < k
      · simp only [List.map_cons, collectEvents, if_pos hlt]
        rw [ih k (found + 1) (results ++ [m]) (by omega)
          (by simp only [List.length_cons] at hlen; omega)]
        congr 1
        have ht : (k - found).toNat = (k - (found + 1)).toNat + 1 := by omega
        rw [ht, List.take_succ_cons, List.append_assoc, List.singleton_append]
      · have h0 : (k - found).toNat = 0 := by omega
        simp [collectEvents, hlt, h0]

/-! ## Claim C2: the coordinator collects exactly n records -/

/-- C2: for every target n at least 1 and a result channel on which at
least n match records arrive, the collection loop appends exactly the
first n received records and then leaves the loop toward shutdown; every
record after the n-th stays on the channel and is never appended. -/
theorem c2_collects_exactly_n (n : Int) (ms : List MatchRecord)
    (hn : 1 ≤ n) (hlen : n.toNat ≤ ms.length) :
    collectEvents n 0 [] (ms.map Event.matchFound) =
      LoopOutcome.completed (ms.take n.toNat) ∧
    (ms.take n.toNat).length = n.toNat := by
  constructor
  · have h := collectEvents_matches ms n 0 [] (by omega) (by simpa using hlen)
    simpa using h
  · rw [List.length_take]
    exact Nat.min_eq_left hlen

/-- C2 (witness): with target 2 and three records arriving, exactly the
first two are collected and the third is not appended. -/
theorem c2_collects_exactly_n_witness :
    (1 : Int) ≤ 2 ∧
    (2 : Int).toNat ≤ ([⟨['k', '1'], ['s', '1']⟩, ⟨['k', '2'], ['s', '2']⟩,
        ⟨['k', '3'], ['s', '3']⟩] : List MatchRecord).length ∧
    (collectEvents 2 0 []
        (([⟨['k', '1'], ['s', '1']⟩, ⟨['k', '2'], ['s', '2']⟩,
          ⟨['k', '3'], ['s', '3']⟩] : List MatchRecord).map Event.matchFound) =
      LoopOutcome.completed
        (([⟨['k', '1'], ['s', '1']⟩, ⟨['k', '2'], ['s', '2']⟩,
          ⟨['k', '3'], ['s', '3']⟩] : List MatchRecord).take (2 : Int).toNat) ∧
      (([⟨['k', '1'], ['s', '1']⟩, ⟨['k', '2'], ['s', '2']⟩,
        ⟨['k', '3'], ['s', '3']⟩] : List MatchRecord).take (2 : Int).toNat).length =
        (2 : Int).toNat) :=
  ⟨by decide, by decide,
    c2_collects_exactly_n 2
      [⟨['k', '1'], ['s', '1']⟩, ⟨['k', '2'], ['s', '2']⟩, ⟨['k', '3'], ['s', '3']⟩]
      (by decide) (by decide)⟩

/-! ## Claim C7: interrupt before any match skips persistence -/

/-- C7: an interrupt arriving while the coordinator is still waiting for
its first match (target at least 1) exits the process with code 0 after
the graceful message: the persistence step is never invoked and the prior
on-disk state is left untouched. -/
theorem c7_interrupt_skips_persistence (max_matches : Int) (rest : List Event)
    (fileBefore : FileState) (writeOk : Bool) (h : 1 ≤ max_matches) :
    runCoordinator max_matches (Event.interrupt :: rest) fileBefore writeOk =
      some ⟨some fileBefore, [ConsoleMsg.exitingGracefully], 0, false⟩ := by
  have h0 : (0 : Int) < max_matches := by omega
  simp [runCoordinator, collectEvents, h0]

/-- C7 (witness): an interrupt as the first arrival with target 1 leaves
a pre-existing valid result file untouched, writes nothing, and exits 0. -/
theorem c7_interrupt_skips_persistence_witness :
    (1 : Int) ≤ 1 ∧
    runCoordinator 1 [Event.interrupt] (FileState.valid [⟨['k'], ['s']⟩]) true =
      some ⟨some (FileState.valid [⟨['k'], ['s']⟩]),
        [ConsoleMsg.exitingGracefully], 0, false⟩ :=
  ⟨by decide,
    c7_interrupt_skips_persistence 1 [] (FileState.valid [⟨['k'], ['s']⟩]) true (by decide)⟩

/-! ## Claim C8: persistence appends unconditionally, without dedup -/

/-- C8: whenever the collection loop completes with the new records, a
run against a valid prior file of n records rewrites it to exactly the
prior records followed by the new ones, of length n + k, duplicates
preserved: no deduplication happens anywhere. -/
theorem c8_persistence_appends (max_matches : Int) (events : List Event)
    (priorRecords newRecords : List MatchRecord)
    (hc : collectEvents max_matches 0 [] events = LoopOutcome.completed newRecords) :
    runCoordinator max_matches events (FileState.valid priorRecords) true =
      some ⟨some (FileState.valid (priorRecords ++ newRecords)), [], 0, true⟩ ∧
    (priorRecords ++ newRecords).length =
      priorRecords.length + newRecords.length := by
  constructor
  · simp [runCoordinator, hc, persistStep, loadPrior]
  · simp [List.length_append]

/-- C8 (witness): a run collecting one record identical to the one
already stored yields a file holding the record twice — the duplicate is
preserved and the length grows from 1 to 2. -/
theorem c8_persistence_appends_witness :
    collectEvents 1 0 [] [Event.matchFound ⟨['k'], ['s']⟩] =
      LoopOutcome.completed [⟨['k'], ['s']⟩] ∧
    (runCoordinator 1 [Event.matchFound ⟨['k'], ['s']⟩]
        (FileState.valid [⟨['k'], ['s']⟩]) true =
      some ⟨some (FileState.valid ([⟨['k'], ['s']⟩] ++ [⟨['k'], ['s']⟩])), [], 0, true⟩ ∧
     (([⟨['k'], ['s']⟩] ++ [⟨['k'], ['s']⟩] : List MatchRecord)).length =
       ([⟨['k'], ['s']⟩] : List MatchRecord).length +
         ([⟨['k'], ['s']⟩] : List MatchRecord).length) :=
  ⟨by decide,
    c8_persistence_appends 1 [Event.matchFound ⟨['k'], ['s']⟩]
      [⟨['k'], ['s']⟩] [⟨['k'], ['s']⟩] (by decide)⟩

/-! ## Claim C9: target zero collects nothing and never blocks -/

/-- C9: with max-matches 0 the collection loop finishes immediately with
no record collected, for every event stream — including the empty one, so
the loop never blocks on the result channel — and the run terminates,
proceeding to shutdown and persistence. -/
theorem c9_zero_target_no_block (events : List Event) (fileBefore : FileState) :
    collectEvents 0 0 [] events = LoopOutcome.completed [] ∧
    runCoordinator 0 events fileBefore true =
      some ⟨some (FileState.valid (loadPrior fileBefore)), [], 0, true⟩ := by
  have hc : collectEvents 0 0 [] events = LoopOutcome.completed [] := by
    cases events with
    | nil => simp [collectEvents]
    | cons e rest => simp [collectEvents]
  refine ⟨hc, ?_⟩
  simp [runCoordinator, hc, persistStep]

/-! ## Claim C10: the result file is touched even with zero new matches -/

/-- C10 (counterexample): an existing file with corrupt contents is not
rewritten with unchanged content: a zero-match run replaces it with an
empty JSON array, which differs from the corrupt prior contents. -/
theorem c10_corrupt_file_rewritten_counterexample :
    runCoordinator 0 [] FileState.corrupt true =
      some ⟨some (FileState.valid []), [], 0, true⟩ ∧
    FileState.valid [] ≠ FileState.corrupt := by
  exact ⟨by decide, by decide⟩

/-- C10 (amended): even a run collecting zero new matches (target at most
0) always executes persistence on the normal-completion path: a missing
file is created holding the empty array, a valid file is rewritten with
its own records unchanged, and a corrupt file is replaced by the empty
array. -/
theorem c10_zero_match_persistence (max_matches : Int) (events : List Event)
    (fileBefore : FileState) (h : max_matches ≤ 0) :
    runCoordinator max_matches events fileBefore true =
      some ⟨some (FileState.valid (loadPrior fileBefore)), [], 0, true⟩ ∧
    loadPrior FileState.missing = [] ∧
    (∀ records : List MatchRecord, loadPrior (FileState.valid records) = records) := by
  have hnlt : ¬ ((0 : Int) < max_matches) := by omega
  have hc : collectEvents max_matches 0 [] events = LoopOutcome.completed [] := by
    cases events with
    | nil => simp [collectEvents, hnlt]
    | cons e rest => simp [collectEvents, hnlt]
  refine ⟨?_, rfl, fun records => rfl⟩
  simp [runCoordinator, hc, persistStep]

/-- C10 (witness): a run with target -1 over an empty event stream and a
missing prior file writes the file with the empty array and exits 0. -/
theorem c10_zero_match_persistence_witness :
    (-1 : Int) ≤ 0 ∧
    (runCoordinator (-1) [] FileState.missing true =
      some ⟨some (FileState.valid (loadPrior FileState.missing)), [], 0, true⟩ ∧
     loadPrior FileState.missing = [] ∧
     (∀ records : List MatchRecord, loadPrior (FileState.valid records) = records)) :=
  ⟨by decide, c10_zero_match_persistence (-1) [] FileState.missing (by decide)⟩
